import Mathlib

/-
Verification of the pulse-server relay core (pulse-server/src/messages.rs,
state.rs, connection.rs) against its natural-language specification.

The embedding is shallow: JSON values are a Lean inductive, the serde
serialization of the WsMessage envelope is a function into that inductive,
the DashMap-backed ServerState is an association list with explicit state
passing, and each Rust method becomes a Lean function transcribed from the
source.  Channel send models tokio's UnboundedSender::send, which succeeds
exactly when the receiving end has not been dropped; a channel records the
messages its receiver would observe, in order.
-/

namespace Pulse

/-- JSON values, the wire representation produced and consumed by serde_json.
Objects keep their fields in emission order; field lookup is by key. -/
inductive Json where
  | null
  | bool (b : Bool)
  | num (n : Int)
  | str (s : String)
  | arr (elems : List Json)
  | obj (fields : List (String × Json))

/-- The wire envelope of pulse-server (messages.rs, enum WsMessage): a closed
tagged sum with discriminant field named type, snake_case wire names.
Connect additionally carries the optional token that connection.rs
destructures in wait_for_connect and that the wire schema lists as
token?: string; the enum text in messages.rs predates that field. -/
inductive WsMessage where
  | ChatMessage (id chat_id sender_id sender_name recipient_id content : String)
      (timestamp : Int)
  | Typing (chat_id user_id : String) (is_typing : Bool)
  | Presence (user_id : String) (is_online : Bool) (last_seen : Option Int)
  | DeliveryReceipt (message_id chat_id sender_id delivered_to : String)
  | ReadReceipt (chat_id sender_id user_id : String) (message_ids : List String)
  | Connect (user_id : String) (token : Option String)
  | AuthResponse (success : Bool) (message : String)
  | Error (message : String)
  | ProfileUpdate (user_id name : String) (phone avatar_url about avatar_data : Option String)

/-- serde serialization of an optional string field (no skip_serializing_if
on the server enum, so None serializes as null). -/
def jsonOfOptStr : Option String → Json
  | none => Json.null
  | some s => Json.str s

/-- serde serialization of an optional i64 field. -/
def jsonOfOptInt : Option Int → Json
  | none => Json.null
  | some n => Json.num n

/-- serde_json::to_string on WsMessage: internally tagged with tag type,
the tag first, then the fields in declaration order. -/
def serializeWs : WsMessage → Json
  | .ChatMessage id chat_id sender_id sender_name recipient_id content timestamp =>
      Json.obj [("type", Json.str "message"), ("id", Json.str id),
        ("chat_id", Json.str chat_id), ("sender_id", Json.str sender_id),
        ("sender_name", Json.str sender_name), ("recipient_id", Json.str recipient_id),
        ("content", Json.str content), ("timestamp", Json.num timestamp)]
  | .Typing chat_id user_id is_typing =>
      Json.obj [("type", Json.str "typing"), ("chat_id", Json.str chat_id),
        ("user_id", Json.str user_id), ("is_typing", Json.bool is_typing)]
  | .Presence user_id is_online last_seen =>
      Json.obj [("type", Json.str "presence"), ("user_id", Json.str user_id),
        ("is_online", Json.bool is_online), ("last_seen", jsonOfOptInt last_seen)]
  | .DeliveryReceipt message_id chat_id sender_id delivered_to =>
      Json.obj [("type", Json.str "delivery_receipt"), ("message_id", Json.str message_id),
        ("chat_id", Json.str chat_id), ("sender_id", Json.str sender_id),
        ("delivered_to", Json.str delivered_to)]
  | .ReadReceipt chat_id sender_id user_id message_ids =>
      Json.obj [("type", Json.str "read_receipt"), ("chat_id", Json.str chat_id),
        ("sender_id", Json.str sender_id), ("user_id", Json.str user_id),
        ("message_ids", Json.arr (message_ids.map Json.str))]
  | .Connect user_id token =>
      Json.obj [("type", Json.str "connect"), ("user_id", Json.str user_id),
        ("token", jsonOfOptStr token)]
  | .AuthResponse success message =>
      Json.obj [("type", Json.str "auth_response"), ("success", Json.bool success),
        ("message", Json.str message)]
  | .Error message =>
      Json.obj [("type", Json.str "error"), ("message", Json.str message)]
  | .ProfileUpdate user_id name phone avatar_url about avatar_data =>
      Json.obj [("type", Json.str "profile_update"), ("user_id", Json.str user_id),
        ("name", Json.str name), ("phone", jsonOfOptStr phone),
        ("avatar_url", jsonOfOptStr avatar_url), ("about", jsonOfOptStr about),
        ("avatar_data", jsonOfOptStr avatar_data)]

/-- Field lookup in a JSON object, first occurrence wins. -/
def lookupField : List (String × Json) → String → Option Json
  | [], _ => none
  | (k, v) :: rest, key => if k = key then some v else lookupField rest key

/-- A JSON value deserialized as a string. -/
def asStr : Json → Option String
  | Json.str s => some s
  | _ => none

/-- A JSON value deserialized as a bool. -/
def asBool : Json → Option Bool
  | Json.bool b => some b
  | _ => none

/-- A JSON value deserialized as an i64. -/
def asInt : Json → Option Int
  | Json.num n => some n
  | _ => none

/-- Required string field. -/
def getStr (fs : List (String × Json)) (k : String) : Option String :=
  (lookupField fs k).bind asStr

/-- Required bool field. -/
def getBool (fs : List (String × Json)) (k : String) : Option Bool :=
  (lookupField fs k).bind asBool

/-- Required i64 field. -/
def getInt (fs : List (String × Json)) (k : String) : Option Int :=
  (lookupField fs k).bind asInt

/-- Optional string field: missing and null both deserialize to None. -/
def getOptStr (fs : List (String × Json)) (k : String) : Option (Option String) :=
  match lookupField fs k with
  | none => some none
  | some Json.null => some none
  | some (Json.str s) => some (some s)
  | some _ => none

/-- Optional i64 field: missing and null both deserialize to None. -/
def getOptInt (fs : List (String × Json)) (k : String) : Option (Option Int) :=
  match lookupField fs k with
  | none => some none
  | some Json.null => some none
  | some (Json.num n) => some (some n)
  | some _ => none

/-- Deserialize a JSON array of strings element by element. -/
def strList : List Json → Option (List String)
  | [] => some []
  | j :: rest => do
      let s ← asStr j
      let tail ← strList rest
      some (s :: tail)

/-- Required Vec of strings field. -/
def getStrList (fs : List (String × Json)) (k : String) : Option (List String) :=
  (lookupField fs k).bind fun j =>
    match j with
    | Json.arr xs => strList xs
    | _ => none

/-- serde_json::from_str on WsMessage: dispatch on the type discriminant,
then extract each declared field by name; unknown discriminants and
non-objects fail. -/
def parseWs : Json → Option WsMessage
  | Json.obj fs =>
    match getStr fs "type" with
    | some "message" => do
        let id ← getStr fs "id"
        let chat_id ← getStr fs "chat_id"
        let sender_id ← getStr fs "sender_id"
        let sender_name ← getStr fs "sender_name"
        let recipient_id ← getStr fs "recipient_id"
        let content ← getStr fs "content"
        let timestamp ← getInt fs "timestamp"
        some (.ChatMessage id chat_id sender_id sender_name recipient_id content timestamp)
    | some "typing" => do
        let chat_id ← getStr fs "chat_id"
        let user_id ← getStr fs "user_id"
        let is_typing ← getBool fs "is_typing"
        some (.Typing chat_id user_id is_typing)
    | some "presence" => do
        let user_id ← getStr fs "user_id"
        let is_online ← getBool fs "is_online"
        let last_seen ← getOptInt fs "last_seen"
        some (.Presence user_id is_online last_seen)
    | some "delivery_receipt" => do
        let message_id ← getStr fs "message_id"
        let chat_id ← getStr fs "chat_id"
        let sender_id ← getStr fs "sender_id"
        let delivered_to ← getStr fs "delivered_to"
        some (.DeliveryReceipt message_id chat_id sender_id delivered_to)
    | some "read_receipt" => do
        let chat_id ← getStr fs "chat_id"
        let sender_id ← getStr fs "sender_id"
        let user_id ← getStr fs "user_id"
        let message_ids ← getStrList fs "message_ids"
        some (.ReadReceipt chat_id sender_id user_id message_ids)
    | some "connect" => do
        let user_id ← getStr fs "user_id"
        let token ← getOptStr fs "token"
        some (.Connect user_id token)
    | some "auth_response" => do
        let success ← getBool fs "success"
        let message ← getStr fs "message"
        some (.AuthResponse success message)
    | some "error" => do
        let message ← getStr fs "message"
        some (.Error message)
    | some "profile_update" => do
        let user_id ← getStr fs "user_id"
        let name ← getStr fs "name"
        let phone ← getOptStr fs "phone"
        let avatar_url ← getOptStr fs "avatar_url"
        let about ← getOptStr fs "about"
        let avatar_data ← getOptStr fs "avatar_data"
        some (.ProfileUpdate user_id name phone avatar_url about avatar_data)
    | some _ => none
    | none => none
  | _ => none

/-- An outbound channel (one tokio mpsc::UnboundedSender per session).
closed models the receiver having been dropped; sent records, in order,
the messages the receiving side would observe. -/
structure Channel where
  closed : Bool
  sent : List Json

/-- UnboundedSender::send: succeeds exactly when the receiver is alive. -/
def Channel.send (c : Channel) (m : Json) : Channel × Bool :=
  if c.closed then (c, false) else ({ c with sent := c.sent ++ [m] }, true)

/-- ServerState (state.rs): user_id keyed maps, modelled as association
lists with first-occurrence lookup (DashMap keys are unique). -/
structure ServerState where
  clients : List (String × List Channel)
  pending_messages : List (String × List Json)

/-- ServerState::new. -/
def ServerState.new : ServerState := ⟨[], []⟩

/-- First-occurrence association-list lookup (DashMap::get). -/
def lookupAssoc {α : Type} : List (String × α) → String → Option α
  | [], _ => none
  | (k, v) :: rest, key => if k = key then some v else lookupAssoc rest key

/-- DashMap::entry(k).or_insert(d) followed by an in-place update: modify
the first entry with that key, appending a new entry when absent. -/
def updateAssoc {α : Type} : List (String × α) → String → (α → α) → α → List (String × α)
  | [], k, f, d => [(k, f d)]
  | (k', v) :: rest, k, f, d =>
      if k' = k then (k', f v) :: rest else (k', v) :: updateAssoc rest k f d

/-- DashMap::remove(k): drop the first entry with that key. -/
def removeAssoc {α : Type} : List (String × α) → String → List (String × α)
  | [], _ => []
  | (k', v) :: rest, k => if k' = k then rest else (k', v) :: removeAssoc rest k

/-- ServerState::add_client: entry(user_id).or_insert_with(Vec::new).push(tx). -/
def ServerState.add_client (st : ServerState) (user_id : String) (tx : Channel) : ServerState :=
  { st with clients := updateAssoc st.clients user_id (fun txs => txs ++ [tx]) [] }

/-- The body of ServerState::remove_client on the clients map: retain the
non-closed channels of that user; drop the user entry when none remain. -/
def removeClientList : List (String × List Channel) → String → List (String × List Channel)
  | [], _ => []
  | (k, txs) :: rest, user_id =>
      if k = user_id then
        let kept := txs.filter (fun tx => !tx.closed)
        if kept.isEmpty then rest else (k, kept) :: rest
      else (k, txs) :: removeClientList rest user_id

/-- ServerState::remove_client. -/
def ServerState.remove_client (st : ServerState) (user_id : String) : ServerState :=
  { st with clients := removeClientList st.clients user_id }

/-- Send a message through every channel of one user's list; true when at
least one send succeeded (the loop body of send_to_user). -/
def sendToList : List Channel → Json → List Channel × Bool
  | [], _ => ([], false)
  | c :: rest, m =>
      let sent := c.send m
      let tail := sendToList rest m
      (sent.1 :: tail.1, sent.2 || tail.2)

/-- ServerState::send_to_user applied to the clients map: deliver to every
channel of the first entry for that user, false when the user is absent. -/
def sendClients : List (String × List Channel) → String → Json → List (String × List Channel) × Bool
  | [], _, _ => ([], false)
  | (k, txs) :: rest, user_id, m =>
      if k = user_id then
        let sent := sendToList txs m
        ((k, sent.1) :: rest, sent.2)
      else
        let tail := sendClients rest user_id m
        ((k, txs) :: tail.1, tail.2)

/-- ServerState::send_to_user. -/
def ServerState.send_to_user (st : ServerState) (user_id : String) (m : Json) : ServerState × Bool :=
  let res := sendClients st.clients user_id m
  ({ st with clients := res.1 }, res.2)

/-- ServerState::broadcast applied to the clients map: push onto every
channel of every entry whose key is not the excluded user; send errors
are silently dropped. -/
def broadcastClients (cs : List (String × List Channel)) (m : Json) (exclude_user_id : Option String) :
    List (String × List Channel) :=
  cs.map (fun e => if some e.1 ≠ exclude_user_id then (e.1, (sendToList e.2 m).1) else e)

/-- ServerState::broadcast. -/
def ServerState.broadcast (st : ServerState) (m : Json) (exclude_user_id : Option String) : ServerState :=
  { st with clients := broadcastClients st.clients m exclude_user_id }

/-- ServerState::online_users: keys whose channel list is non-empty. -/
def ServerState.online_users (st : ServerState) : List String :=
  (st.clients.filter (fun e => !e.2.isEmpty)).map (fun e => e.1)

/-- ServerState::is_online: the user has an entry with a non-empty channel
list (closed-ness of the channels is not consulted). -/
def ServerState.is_online (st : ServerState) (user_id : String) : Bool :=
  match lookupAssoc st.clients user_id with
  | some txs => !txs.isEmpty
  | none => false

/-- MAX_PENDING_MESSAGES_PER_USER (state.rs). -/
def MAX_PENDING_MESSAGES_PER_USER : Nat := 1000

/-- The queue body of ServerState::queue_message: drop the oldest entry
when at capacity, then append. -/
def pushPending (msgs : List Json) (m : Json) : List Json :=
  (if msgs.length ≥ MAX_PENDING_MESSAGES_PER_USER then msgs.drop 1 else msgs) ++ [m]

/-- ServerState::queue_message: or_insert empty, then enqueue. -/
def ServerState.queue_message (st : ServerState) (user_id : String) (m : Json) : ServerState :=
  { st with
    pending_messages :=
      updateAssoc st.pending_messages user_id (fun msgs => pushPending msgs m) [] }

/-- ServerState::take_pending_messages: remove the entry, return its FIFO
(empty when absent). -/
def ServerState.take_pending_messages (st : ServerState) (user_id : String) :
    List Json × ServerState :=
  ((lookupAssoc st.pending_messages user_id).getD [],
   { st with pending_messages := removeAssoc st.pending_messages user_id })

/-- ServerState::send_or_queue: try send_to_user, queue on failure. -/
def ServerState.send_or_queue (st : ServerState) (user_id : String) (m : Json) : ServerState × Bool :=
  let sent := st.send_to_user user_id m
  if sent.2 then (sent.1, true) else (sent.1.queue_message user_id m, false)

/-- ServerState::pending_count. -/
def ServerState.pending_count (st : ServerState) (user_id : String) : Nat :=
  ((lookupAssoc st.pending_messages user_id).getD []).length

/-- The identity-enforcement match of handle_message (connection.rs): the
sender-identity field of each client-authored variant is overwritten with
the session's authenticated user id; Connect, AuthResponse and Error are
left untouched.  (The call-signaling variants handled by connection.rs are
absent from the server envelope enum in messages.rs and are not modelled.) -/
def enforce_identity (sender_id : String) : WsMessage → WsMessage
  | .ChatMessage id chat_id _ sender_name recipient_id content timestamp =>
      .ChatMessage id chat_id sender_id sender_name recipient_id content timestamp
  | .Typing chat_id _ is_typing => .Typing chat_id sender_id is_typing
  | .Presence _ is_online last_seen => .Presence sender_id is_online last_seen
  | .DeliveryReceipt message_id chat_id orig_sender _ =>
      .DeliveryReceipt message_id chat_id orig_sender sender_id
  | .ReadReceipt chat_id orig_sender _ message_ids =>
      .ReadReceipt chat_id orig_sender sender_id message_ids
  | .ProfileUpdate _ name phone avatar_url about avatar_data =>
      .ProfileUpdate sender_id name phone avatar_url about avatar_data
  | .Connect user_id token => .Connect user_id token
  | .AuthResponse success message => .AuthResponse success message
  | .Error message => .Error message

/-- handle_message (connection.rs): parse, enforce the sender identity,
re-serialize, then route the re-serialized text by variant.  A parse
failure is logged and dropped with no state change. -/
def handle_message (text : Json) (sender_id : String) (st : ServerState) : ServerState :=
  match parseWs text with
  | none => st
  | some msg =>
    let safe := enforce_identity sender_id msg
    let safe_text := serializeWs safe
    match safe with
    | .ChatMessage _ _ _ _ recipient_id _ _ => (st.send_or_queue recipient_id safe_text).1
    | .Typing _ _ _ => st.broadcast safe_text (some sender_id)
    | .Presence _ _ _ => st.broadcast safe_text (some sender_id)
    | .DeliveryReceipt _ _ original_sender _ => (st.send_or_queue original_sender safe_text).1
    | .ReadReceipt _ original_sender _ _ => (st.send_or_queue original_sender safe_text).1
    | .ProfileUpdate _ _ _ _ _ _ => st.broadcast safe_text (some sender_id)
    | .Connect _ _ => st
    | .AuthResponse _ _ => st
    | .Error _ => st

/-- One result delivered by the WebSocket receiver during the handshake.
Only Ok text frames are examined by wait_for_connect; every other result
(close, ping, binary, read errors) falls through its if-let and is
skipped.  The end of the list models the stream ending or the 10-second
deadline elapsing. -/
inductive RecvEvent where
  | text (j : Json)
  | notText

/-- wait_for_connect (connection.rs): scan the received results for a text
frame that parses as Connect.  Parse failures and non-Connect variants are
logged and skipped, the loop keeps waiting.  On Connect, when the
PULSE_ACCESS_TOKEN environment variable is present (env) and non-empty,
a missing or mismatching token aborts with None; otherwise the carried
user_id is returned as the authenticated identity, with no validation. -/
def wait_for_connect (env : Option String) : List RecvEvent → Option String
  | [] => none
  | RecvEvent.text t :: rest =>
      (match parseWs t with
       | some (.Connect user_id token) =>
           (match env with
            | some expected_token =>
                if expected_token ≠ "" then
                  match token with
                  | some received_token =>
                      if received_token ≠ expected_token then none else some user_id
                  | none => none
                else some user_id
            | none => some user_id)
       | some _ => wait_for_connect env rest
       | none => wait_for_connect env rest)
  | RecvEvent.notText :: rest => wait_for_connect env rest

/-- The registration fragment of handle_connection (connection.rs): after
wait_for_connect succeeds, the new outbound channel is registered, an
online Presence is broadcast to everyone else, a Presence for each other
currently online user is sent to this user, and the pending queue is
drained through send_to_user in FIFO order.  The AuthResponse frame is
written directly to the socket, bypassing the directory, and so does not
appear in this state. -/
def auth_transition (st : ServerState) (user_id : String) (tx : Channel) : ServerState :=
  let st1 := st.add_client user_id tx
  let st2 := st1.broadcast (serializeWs (.Presence user_id true none)) (some user_id)
  let st3 := st2.online_users.foldl
    (fun s online_user_id =>
      if online_user_id ≠ user_id then
        (s.send_to_user user_id (serializeWs (.Presence online_user_id true none))).1
      else s)
    st2
  let drained := st3.take_pending_messages user_id
  drained.1.foldl (fun s m => (s.send_to_user user_id m).1) drained.2

/-- One offline-queue operation, for quantifying over operation sequences. -/
inductive QueueOp where
  | queue (user_id : String) (m : Json)
  | take (user_id : String)

/-- Apply one queue operation. -/
def applyQueueOp (st : ServerState) : QueueOp → ServerState
  | .queue user_id m => st.queue_message user_id m
  | .take user_id => (st.take_pending_messages user_id).2

/-- Apply a sequence of queue operations in order. -/
def applyQueueOps (st : ServerState) (ops : List QueueOp) : ServerState :=
  ops.foldl applyQueueOp st

/-- Every text present anywhere in the state: the contents of every
outbound channel plus every pending queue. -/
def textsIn (st : ServerState) : List Json :=
  (st.clients.flatMap fun e => e.2.flatMap fun c => c.sent) ++
    st.pending_messages.flatMap fun p => p.2

/-- The identity field named by the spec's anti-spoofing table, per variant
(none for the three variants the table ignores).  Stated from the spec's
words, for comparison with enforce_identity. -/
def identityField : WsMessage → Option String
  | .ChatMessage _ _ sender_id _ _ _ _ => some sender_id
  | .Typing _ user_id _ => some user_id
  | .Presence user_id _ _ => some user_id
  | .DeliveryReceipt _ _ _ delivered_to => some delivered_to
  | .ReadReceipt _ _ user_id _ => some user_id
  | .ProfileUpdate user_id _ _ _ _ _ => some user_id
  | .Connect _ _ => none
  | .AuthResponse _ _ => none
  | .Error _ => none

/-- The spec's notion of online (section 4.2): the directory holds at
least one non-closed channel for the user.  Stated from the spec's words,
for comparison with is_online. -/
def has_live_channel (st : ServerState) (user_id : String) : Bool :=
  match lookupAssoc st.clients user_id with
  | some txs => txs.any (fun tx => !tx.closed)
  | none => false

theorem lookupAssoc_updateAssoc_self {α : Type} (m : List (String × α)) (k : String)
    (f : α → α) (d : α) :
    lookupAssoc (updateAssoc m k f d) k = some (f ((lookupAssoc m k).getD d)) := by
  induction m with
  | nil => simp [lookupAssoc, updateAssoc]
  | cons p rest ih =>
      obtain ⟨k', v⟩ := p
      by_cases h : k' = k
      · subst h; simp [lookupAssoc, updateAssoc]
      · simp [lookupAssoc, updateAssoc, h, ih]

theorem lookupAssoc_updateAssoc_ne {α : Type} (m : List (String × α)) (k k₂ : String)
    (f : α → α) (d : α) (h : k₂ ≠ k) :
    lookupAssoc (updateAssoc m k f d) k₂ = lookupAssoc m k₂ := by
  induction m with
  | nil => simp [lookupAssoc, updateAssoc, Ne.symm h]
  | cons p rest ih =>
      obtain ⟨k', v⟩ := p
      by_cases hk : k' = k
      · subst hk; simp [lookupAssoc, updateAssoc, Ne.symm h]
      · simp [lookupAssoc, updateAssoc, hk, ih]

theorem lookupAssoc_removeAssoc_ne {α : Type} (m : List (String × α)) (k k₂ : String)
    (h : k₂ ≠ k) :
    lookupAssoc (removeAssoc m k) k₂ = lookupAssoc m k₂ := by
  induction m with
  | nil => simp [removeAssoc]
  | cons p rest ih =>
      obtain ⟨k', v⟩ := p
      by_cases hk : k' = k
      · subst hk; simp [lookupAssoc, removeAssoc, Ne.symm h]
      · simp [lookupAssoc, removeAssoc, hk, ih]

theorem lookupAssoc_mem {α : Type} (m : List (String × α)) (k : String) (v : α)
    (h : lookupAssoc m k = some v) : (k, v) ∈ m := by
  induction m with
  | nil => simp [lookupAssoc] at h
  | cons p rest ih =>
      obtain ⟨k', v'⟩ := p
      by_cases hk : k' = k
      · subst hk
        simp [lookupAssoc] at h
        subst h; exact List.mem_cons_self _ _
      · simp [lookupAssoc, hk] at h
        exact List.mem_cons_of_mem _ (ih h)

theorem mem_updateAssoc {α : Type} (m : List (String × α)) (k : String) (f : α → α) (d : α)
    (p : String × α) (h : p ∈ updateAssoc m k f d) :
    p ∈ m ∨ ∃ q, p = (k, f q) ∧ (q = d ∨ (k, q) ∈ m) := by
  induction m with
  | nil =>
      simp [updateAssoc] at h
      exact Or.inr ⟨d, h, Or.inl rfl⟩
  | cons e rest ih =>
      obtain ⟨k', v⟩ := e
      by_cases hk : k' = k
      · subst hk
        simp only [updateAssoc, if_pos rfl] at h
        rcases List.mem_cons.mp h with h | h
        · exact Or.inr ⟨v, h, Or.inr (List.mem_cons_self _ _)⟩
        · exact Or.inl (List.mem_cons_of_mem _ h)
      · simp only [updateAssoc, if_neg hk] at h
        rcases List.mem_cons.mp h with h | h
        · exact Or.inl (h ▸ List.mem_cons_self _ _)
        · rcases ih h with h | ⟨q, hq, hmem⟩
          · exact Or.inl (List.mem_cons_of_mem _ h)
          · refine Or.inr ⟨q, hq, ?_⟩
            rcases hmem with h | h
            · exact Or.inl h
            · exact Or.inr (List.mem_cons_of_mem _ h)

theorem mem_removeAssoc {α : Type} (m : List (String × α)) (k : String) (p : String × α)
    (h : p ∈ removeAssoc m k) : p ∈ m := by
  induction m with
  | nil => simp [removeAssoc] at h
  | cons e rest ih =>
      obtain ⟨k', v⟩ := e
      by_cases hk : k' = k
      · subst hk
        simp only [removeAssoc, if_pos rfl] at h
        exact List.mem_cons_of_mem _ h
      · simp only [removeAssoc, if_neg hk] at h
        rcases List.mem_cons.mp h with h | h
        · exact h ▸ List.mem_cons_self _ _
        · exact List.mem_cons_of_mem _ (ih h)

theorem send_fst (c : Channel) (m : Json) :
    (c.send m).1 = if c.closed then c else { c with sent := c.sent ++ [m] } := by
  cases hc : c.closed <;> simp [Channel.send, hc]

theorem send_snd (c : Channel) (m : Json) : (c.send m).2 = !c.closed := by
  cases hc : c.closed <;> simp [Channel.send, hc]

theorem mem_send_sent (c : Channel) (m x : Json) (h : x ∈ ((c.send m).1).sent) :
    x ∈ c.sent ∨ x = m := by
  cases hc : c.closed with
  | true =>
      simp [Channel.send, hc] at h
      exact Or.inl h
  | false =>
      simp [Channel.send, hc] at h
      rcases h with h | h
      · exact Or.inl h
      · exact Or.inr h

theorem sendToList_fst (txs : List Channel) (m : Json) :
    (sendToList txs m).1 = txs.map fun c => (c.send m).1 := by
  induction txs with
  | nil => rfl
  | cons c rest ih => simp [sendToList, ih]

theorem sendToList_snd (txs : List Channel) (m : Json) :
    (sendToList txs m).2 = txs.any fun c => !c.closed := by
  induction txs with
  | nil => rfl
  | cons c rest ih => simp [sendToList, ih, send_snd]

theorem sendToList_fst_all_closed (txs : List Channel) (m : Json)
    (h : ∀ c ∈ txs, c.closed = true) : (sendToList txs m).1 = txs := by
  induction txs with
  | nil => rfl
  | cons c rest ih =>
      have hc := h c (List.mem_cons_self _ _)
      simp [sendToList, Channel.send, hc, ih fun c hcm => h c (List.mem_cons_of_mem _ hcm)]

theorem lookupAssoc_sendClients_self (cs : List (String × List Channel)) (u : String) (m : Json) :
    lookupAssoc (sendClients cs u m).1 u
      = (lookupAssoc cs u).map fun txs => (sendToList txs m).1 := by
  induction cs with
  | nil => rfl
  | cons e rest ih =>
      obtain ⟨k, txs⟩ := e
      by_cases hk : k = u
      · subst hk; simp [sendClients, lookupAssoc]
      · simp [sendClients, lookupAssoc, hk, ih]

theorem lookupAssoc_sendClients_ne (cs : List (String × List Channel)) (u v : String) (m : Json)
    (h : v ≠ u) :
    lookupAssoc (sendClients cs u m).1 v = lookupAssoc cs v := by
  induction cs with
  | nil => rfl
  | cons e rest ih =>
      obtain ⟨k, txs⟩ := e
      by_cases hk : k = u
      · subst hk; simp [sendClients, lookupAssoc, Ne.symm h]
      · simp [sendClients, lookupAssoc, hk, ih]

theorem sendClients_snd (cs : List (String × List Channel)) (u : String) (m : Json) :
    (sendClients cs u m).2 = ((lookupAssoc cs u).map fun txs => (sendToList txs m).2).getD false := by
  induction cs with
  | nil => rfl
  | cons e rest ih =>
      obtain ⟨k, txs⟩ := e
      by_cases hk : k = u
      · subst hk; simp [sendClients, lookupAssoc]
      · simp [sendClients, lookupAssoc, hk, ih]

theorem sendClients_fst_absent (cs : List (String × List Channel)) (u : String) (m : Json)
    (h : lookupAssoc cs u = none) : (sendClients cs u m).1 = cs := by
  induction cs with
  | nil => rfl
  | cons e rest ih =>
      obtain ⟨k, txs⟩ := e
      by_cases hk : k = u
      · subst hk; simp [lookupAssoc] at h
      · simp only [lookupAssoc, if_neg hk] at h
        simp [sendClients, hk, ih h]

theorem mem_sendClients_fst (cs : List (String × List Channel)) (u : String) (m : Json)
    (e' : String × List Channel) (h : e' ∈ (sendClients cs u m).1) :
    e' ∈ cs ∨ ∃ e ∈ cs, e' = (e.1, (sendToList e.2 m).1) := by
  induction cs with
  | nil => simp [sendClients] at h
  | cons e rest ih =>
      obtain ⟨k, txs⟩ := e
      by_cases hk : k = u
      · subst hk
        simp only [sendClients, if_pos rfl] at h
        rcases List.mem_cons.mp h with h | h
        · exact Or.inr ⟨(k, txs), List.mem_cons_self _ _, h⟩
        · exact Or.inl (List.mem_cons_of_mem _ h)
      · simp only [sendClients, if_neg hk] at h
        rcases List.mem_cons.mp h with h | h
        · exact Or.inl (h ▸ List.mem_cons_self _ _)
        · rcases ih h with h | ⟨e, he, heq⟩
          · exact Or.inl (List.mem_cons_of_mem _ h)
          · exact Or.inr ⟨e, List.mem_cons_of_mem _ he, heq⟩

theorem mem_broadcastClients (cs : List (String × List Channel)) (m : Json)
    (ex : Option String) (e' : String × List Channel) (h : e' ∈ broadcastClients cs m ex) :
    e' ∈ cs ∨ ∃ e ∈ cs, e' = (e.1, (sendToList e.2 m).1) := by
  rcases List.mem_map.mp h with ⟨e, he, heq⟩
  by_cases hex : some e.1 ≠ ex
  · rw [if_pos hex] at heq
    exact Or.inr ⟨e, he, heq.symm⟩
  · rw [if_neg hex] at heq
    exact Or.inl (heq ▸ he)

theorem lookupAssoc_broadcastClients_excl (cs : List (String × List Channel)) (m : Json)
    (u : String) :
    lookupAssoc (broadcastClients cs m (some u)) u = lookupAssoc cs u := by
  induction cs with
  | nil => rfl
  | cons e rest ih =>
      obtain ⟨k, txs⟩ := e
      simp only [broadcastClients, List.map_cons] at ih ⊢
      by_cases hk : k = u
      · subst hk
        rw [if_neg (by simp)]
        simp [lookupAssoc]
      · rw [if_pos (by simp [hk])]
        simp only [lookupAssoc, if_neg hk]
        exact ih

theorem mem_pushPending (q : List Json) (m x : Json) (h : x ∈ pushPending q m) :
    x ∈ q ∨ x = m := by
  unfold pushPending at h
  rcases List.mem_append.mp h with h | h
  · by_cases hq : q.length ≥ MAX_PENDING_MESSAGES_PER_USER
    · rw [if_pos hq] at h
      exact Or.inl (List.mem_of_mem_drop h)
    · rw [if_neg hq] at h
      exact Or.inl h
  · simp at h
    exact Or.inr h

theorem pushPending_length_le (q : List Json) (m : Json)
    (h : q.length ≤ MAX_PENDING_MESSAGES_PER_USER) :
    (pushPending q m).length ≤ MAX_PENDING_MESSAGES_PER_USER := by
  unfold pushPending
  by_cases hq : q.length ≥ MAX_PENDING_MESSAGES_PER_USER
  · rw [if_pos hq]
    simp only [List.length_append, List.length_drop, List.length_cons, List.length_nil]
    simp only [MAX_PENDING_MESSAGES_PER_USER] at *
    omega
  · rw [if_neg hq]
    simp only [List.length_append, List.length_cons, List.length_nil]
    simp only [MAX_PENDING_MESSAGES_PER_USER] at *
    omega

theorem mem_flat_send (cs cp : List (String × List Channel)) (m x : Json)
    (hcs : ∀ e' ∈ cp, e' ∈ cs ∨ ∃ e ∈ cs, e' = (e.1, (sendToList e.2 m).1))
    (h : x ∈ cp.flatMap fun e => e.2.flatMap fun c => c.sent) :
    (x ∈ cs.flatMap fun e => e.2.flatMap fun c => c.sent) ∨ x = m := by
  rcases List.mem_flatMap.mp h with ⟨e', he', hx⟩
  rcases List.mem_flatMap.mp hx with ⟨c', hc', hxc⟩
  rcases hcs e' he' with he | ⟨e, he, heq⟩
  · exact Or.inl (List.mem_flatMap.mpr ⟨e', he, List.mem_flatMap.mpr ⟨c', hc', hxc⟩⟩)
  · subst heq
    rw [sendToList_fst] at hc'
    simp only at hc'
    rcases List.mem_map.mp hc' with ⟨c, hc, hceq⟩
    subst hceq
    rcases mem_send_sent c m x hxc with hxs | hxm
    · exact Or.inl (List.mem_flatMap.mpr ⟨e, he, List.mem_flatMap.mpr ⟨c, hc, hxs⟩⟩)
    · exact Or.inr hxm

theorem mem_textsIn_send_to_user (st : ServerState) (u : String) (m x : Json)
    (h : x ∈ textsIn (st.send_to_user u m).1) : x ∈ textsIn st ∨ x = m := by
  unfold textsIn ServerState.send_to_user at h
  rcases List.mem_append.mp h with h | h
  · rcases mem_flat_send st.clients _ m x (mem_sendClients_fst st.clients u m) h with h | h
    · exact Or.inl (List.mem_append.mpr (Or.inl h))
    · exact Or.inr h
  · exact Or.inl (List.mem_append.mpr (Or.inr h))

theorem mem_textsIn_broadcast (st : ServerState) (ex : Option String) (m x : Json)
    (h : x ∈ textsIn (st.broadcast m ex)) : x ∈ textsIn st ∨ x = m := by
  unfold textsIn ServerState.broadcast at h
  rcases List.mem_append.mp h with h | h
  · rcases mem_flat_send st.clients _ m x (mem_broadcastClients st.clients m ex) h with h | h
    · exact Or.inl (List.mem_append.mpr (Or.inl h))
    · exact Or.inr h
  · exact Or.inl (List.mem_append.mpr (Or.inr h))

theorem mem_textsIn_queue_message (st : ServerState) (u : String) (m x : Json)
    (h : x ∈ textsIn (st.queue_message u m)) : x ∈ textsIn st ∨ x = m := by
  unfold textsIn ServerState.queue_message at h
  rcases List.mem_append.mp h with h | h
  · exact Or.inl (List.mem_append.mpr (Or.inl h))
  · rcases List.mem_flatMap.mp h with ⟨p, hp, hx⟩
    rcases mem_updateAssoc _ _ _ _ p hp with hmem | ⟨q, hpq, hq⟩
    · exact Or.inl (List.mem_append.mpr (Or.inr (List.mem_flatMap.mpr ⟨p, hmem, hx⟩)))
    · subst hpq
      simp only at hx
      rcases mem_pushPending q m x hx with hxq | hxm
      · rcases hq with hq | hq
        · subst hq; simp at hxq
        · exact Or.inl (List.mem_append.mpr (Or.inr (List.mem_flatMap.mpr ⟨(u, q), hq, hxq⟩)))
      · exact Or.inr hxm

theorem mem_textsIn_send_or_queue (st : ServerState) (u : String) (m x : Json)
    (h : x ∈ textsIn (st.send_or_queue u m).1) : x ∈ textsIn st ∨ x = m := by
  unfold ServerState.send_or_queue at h
  by_cases hs : (st.send_to_user u m).2
  · rw [if_pos hs] at h
    exact mem_textsIn_send_to_user st u m x h
  · rw [if_neg hs] at h
    rcases mem_textsIn_queue_message _ u m x h with h | h
    · exact mem_textsIn_send_to_user st u m x h
    · exact Or.inr h

theorem send_to_user_pending (st : ServerState) (u : String) (m : Json) :
    (st.send_to_user u m).1.pending_messages = st.pending_messages := rfl

theorem broadcast_pending (st : ServerState) (m : Json) (ex : Option String) :
    (st.broadcast m ex).pending_messages = st.pending_messages := rfl

theorem send_to_user_snd (st : ServerState) (u : String) (m : Json) :
    (st.send_to_user u m).2 = has_live_channel st u := by
  unfold ServerState.send_to_user has_live_channel
  simp only [sendClients_snd, sendToList_snd]
  cases lookupAssoc st.clients u <;> simp

theorem roster_fold_eq (u : String) (pj : String → Json) (vs : List String) :
    ∀ st : ServerState,
      vs.foldl (fun s v => if v ≠ u then (s.send_to_user u (pj v)).1 else s) st
        = ((vs.filter fun w => w ≠ u).map pj).foldl (fun s m => (s.send_to_user u m).1) st := by
  induction vs with
  | nil => intro st; rfl
  | cons v rest ih =>
      intro st
      by_cases hv : v = u
      · simp only [List.foldl_cons]
        rw [if_neg (by simp [hv])]
        rw [ih st]
        have hf : (v :: rest).filter (fun w => w ≠ u) = rest.filter fun w => w ≠ u := by
          simp [List.filter_cons, hv]
        rw [hf]
      · simp only [List.foldl_cons]
        rw [if_pos hv]
        rw [ih ((st.send_to_user u (pj v)).1)]
        have hf : (v :: rest).filter (fun w => w ≠ u) = v :: rest.filter fun w => w ≠ u := by
          simp [List.filter_cons, hv]
        rw [hf, List.map_cons, List.foldl_cons]

theorem lookupAssoc_sendSeq_self (u : String) (msgs : List Json) :
    ∀ st : ServerState,
      lookupAssoc ((msgs.foldl (fun s m => (s.send_to_user u m).1) st).clients) u
        = (lookupAssoc st.clients u).map fun txs =>
            msgs.foldl (fun l m => (sendToList l m).1) txs := by
  induction msgs with
  | nil => intro st; simp
  | cons m rest ih =>
      intro st
      simp only [List.foldl_cons]
      rw [ih]
      have h1 : lookupAssoc ((st.send_to_user u m).1).clients u
          = (lookupAssoc st.clients u).map fun txs => (sendToList txs m).1 :=
        lookupAssoc_sendClients_self st.clients u m
      rw [h1, Option.map_map]
      cases lookupAssoc st.clients u <;> rfl

theorem sendSeq_pending (u : String) (msgs : List Json) :
    ∀ st : ServerState,
      (msgs.foldl (fun s m => (s.send_to_user u m).1) st).pending_messages
        = st.pending_messages := by
  induction msgs with
  | nil => intro st; rfl
  | cons m rest ih =>
      intro st
      simp only [List.foldl_cons]
      rw [ih]
      rfl

theorem sendListFold_single_open (msgs : List Json) :
    ∀ s : List Json,
      msgs.foldl (fun l m => (sendToList l m).1) [⟨false, s⟩]
        = [⟨false, s ++ msgs⟩] := by
  induction msgs with
  | nil => intro s; simp
  | cons m rest ih =>
      intro s
      simp only [List.foldl_cons]
      have h1 : (sendToList [(⟨false, s⟩ : Channel)] m).1 = [⟨false, s ++ [m]⟩] := by
        simp [sendToList, Channel.send]
      rw [h1, ih]
      simp

theorem is_online_iff_mem_online_users (cs : List (String × List Channel))
    (ps : List (String × List Json)) (u : String)
    (h : (cs.map Prod.fst).Nodup) :
    (ServerState.mk cs ps).is_online u = true ↔ u ∈ (ServerState.mk cs ps).online_users := by
  unfold ServerState.is_online ServerState.online_users
  simp only
  induction cs with
  | nil => simp [lookupAssoc]
  | cons e rest ih =>
      obtain ⟨k, txs⟩ := e
      rw [List.map_cons, List.nodup_cons] at h
      obtain ⟨hknot, hnd⟩ := h
      by_cases hk : k = u
      · rw [show lookupAssoc ((k, txs) :: rest) u = some txs from by simp [lookupAssoc, hk]]
        cases hte : txs.isEmpty with
        | false => simp [List.filter_cons, hte, hk]
        | true =>
            rw [List.filter_cons]
            simp only [hte, Bool.not_true, Bool.false_eq_true, if_false]
            constructor
            · intro hfalse
              exact absurd hfalse (by simp)
            · intro hm
              exfalso
              apply hknot
              rcases List.mem_map.mp hm with ⟨e, he, heq⟩
              rw [hk]
              exact heq ▸ List.mem_map.mpr ⟨e, (List.mem_filter.mp he).1, rfl⟩
      · rw [show lookupAssoc ((k, txs) :: rest) u = lookupAssoc rest u from by
            simp [lookupAssoc, hk]]
        rw [List.filter_cons]
        cases hte : txs.isEmpty with
        | false =>
            simp only [hte, Bool.not_false, if_true, List.map_cons, List.mem_cons]
            rw [ih hnd]
            constructor
            · intro hm
              exact Or.inr hm
            · intro hm
              rcases hm with hm | hm
              · exact absurd hm.symm hk
              · exact hm
        | true =>
            simp only [hte, Bool.not_true, Bool.false_eq_true, if_false]
            exact ih hnd

theorem applyQueueOp_bounded (st : ServerState) (op : QueueOp)
    (h : ∀ p ∈ st.pending_messages, p.2.length ≤ MAX_PENDING_MESSAGES_PER_USER) :
    ∀ p ∈ (applyQueueOp st op).pending_messages,
      p.2.length ≤ MAX_PENDING_MESSAGES_PER_USER := by
  cases op with
  | queue v m =>
      intro p hp
      simp only [applyQueueOp, ServerState.queue_message] at hp
      rcases mem_updateAssoc _ _ _ _ p hp with hmem | ⟨q, hpq, hq⟩
      · exact h p hmem
      · subst hpq
        simp only
        rcases hq with hq | hq
        · subst hq
          exact pushPending_length_le [] m (by simp [MAX_PENDING_MESSAGES_PER_USER])
        · exact pushPending_length_le q m (h (v, q) hq)
  | take v =>
      intro p hp
      simp only [applyQueueOp, ServerState.take_pending_messages] at hp
      exact h p (mem_removeAssoc _ _ p hp)

theorem applyQueueOps_bounded (ops : List QueueOp) :
    ∀ st : ServerState,
      (∀ p ∈ st.pending_messages, p.2.length ≤ MAX_PENDING_MESSAGES_PER_USER) →
      ∀ p ∈ (applyQueueOps st ops).pending_messages,
        p.2.length ≤ MAX_PENDING_MESSAGES_PER_USER := by
  induction ops with
  | nil => intro st h; exact h
  | cons op rest ih =>
      intro st h
      exact ih (applyQueueOp st op) (applyQueueOp_bounded st op h)

theorem lookup_queue_fold (u : String) (msgs : List Json) :
    ∀ st : ServerState,
      (lookupAssoc (applyQueueOps st (msgs.map fun m => QueueOp.queue u m)).pending_messages u).getD []
        = msgs.foldl pushPending ((lookupAssoc st.pending_messages u).getD []) := by
  induction msgs with
  | nil => intro st; rfl
  | cons m rest ih =>
      intro st
      simp only [List.map_cons, List.foldl_cons]
      rw [show applyQueueOps st (QueueOp.queue u m :: rest.map fun m => QueueOp.queue u m)
            = applyQueueOps (applyQueueOp st (QueueOp.queue u m)) (rest.map fun m => QueueOp.queue u m)
          from rfl]
      rw [ih]
      congr 1
      simp only [applyQueueOp, ServerState.queue_message]
      rw [lookupAssoc_updateAssoc_self]
      rfl

theorem foldl_pushPending_small (msgs : List Json) :
    ∀ q : List Json, q.length + msgs.length ≤ MAX_PENDING_MESSAGES_PER_USER →
      msgs.foldl pushPending q = q ++ msgs := by
  induction msgs with
  | nil => intro q h; simp
  | cons m rest ih =>
      intro q h
      simp only [List.foldl_cons]
      have hq : ¬ q.length ≥ MAX_PENDING_MESSAGES_PER_USER := by
        simp only [List.length_cons, MAX_PENDING_MESSAGES_PER_USER] at h ⊢
        omega
      rw [show pushPending q m = q ++ [m] by unfold pushPending; rw [if_neg hq]]
      rw [ih (q ++ [m]) (by
        simp only [List.length_append, List.length_cons, List.length_nil,
          MAX_PENDING_MESSAGES_PER_USER] at h ⊢
        omega)]
      simp

theorem strList_map_str (l : List String) : strList (l.map Json.str) = some l := by
  induction l with
  | nil => rfl
  | cons s rest ih => simp [strList, asStr, ih]

/-- The envelope round-trips through serde: shared helper lemma. -/
theorem parse_serialize (x : WsMessage) : parseWs (serializeWs x) = some x := by
  cases x with
  | ChatMessage id chat_id sender_id sender_name recipient_id content timestamp => rfl
  | Typing chat_id user_id is_typing => rfl
  | Presence user_id is_online last_seen => cases last_seen <;> rfl
  | DeliveryReceipt message_id chat_id sender_id delivered_to => rfl
  | ReadReceipt chat_id sender_id user_id message_ids =>
      simp [serializeWs, parseWs, getStr, getStrList, lookupField, asStr,
        strList_map_str]
  | Connect user_id token => cases token <;> rfl
  | AuthResponse success message => rfl
  | Error message => rfl
  | ProfileUpdate user_id name phone avatar_url about avatar_data =>
      cases phone <;> cases avatar_url <;> cases about <;> cases avatar_data <;> rfl

theorem lookupAssoc_removeClientList_ne (cs : List (String × List Channel)) (u v : String)
    (h : v ≠ u) : lookupAssoc (removeClientList cs u) v = lookupAssoc cs v := by
  induction cs with
  | nil => rfl
  | cons e rest ih =>
      obtain ⟨k, txs⟩ := e
      by_cases hk : k = u
      · subst hk
        simp only [removeClientList, if_pos rfl]
        cases hke : (txs.filter fun tx => !tx.closed).isEmpty with
        | true => simp [lookupAssoc, Ne.symm h]
        | false => simp [lookupAssoc, Ne.symm h]
      · simp [removeClientList, hk, lookupAssoc, ih]

theorem sendClients_fst_no_live (cs : List (String × List Channel)) (u : String) (m : Json)
    (h : ∀ txs, lookupAssoc cs u = some txs → (txs.any fun c => !c.closed) = false) :
    (sendClients cs u m).1 = cs := by
  induction cs with
  | nil => rfl
  | cons e rest ih =>
      obtain ⟨k, txs⟩ := e
      by_cases hk : k = u
      · subst hk
        have hall := h txs (by simp [lookupAssoc])
        have hclosed : ∀ c ∈ txs, c.closed = true := by
          intro c hc
          have := (List.any_eq_false.mp hall) c hc
          simpa using this
        simp [sendClients, sendToList_fst_all_closed txs m hclosed]
      · have hrest : ∀ txs₂, lookupAssoc rest u = some txs₂ → (txs₂.any fun c => !c.closed) = false := by
          intro txs₂ hl
          exact h txs₂ (by simp [lookupAssoc, hk, hl])
        simp [sendClients, hk, ih hrest]

theorem send_to_user_fst_no_live (st : ServerState) (u : String) (m : Json)
    (h : has_live_channel st u = false) : (st.send_to_user u m).1 = st := by
  rcases st with ⟨cs, ps⟩
  unfold has_live_channel at h
  simp only at h
  unfold ServerState.send_to_user
  simp only
  rw [sendClients_fst_no_live cs u m]
  intro txs hl
  rw [hl] at h
  exact h

theorem handle_message_chat (u : String) (st : ServerState) (j : Json)
    (id chat_id sender_id sender_name recipient_id content : String) (timestamp : Int)
    (hp : parseWs j = some (.ChatMessage id chat_id sender_id sender_name recipient_id content timestamp)) :
    handle_message j u st
      = (st.send_or_queue recipient_id
          (serializeWs (.ChatMessage id chat_id u sender_name recipient_id content timestamp))).1 := by
  simp [handle_message, hp, enforce_identity]

theorem handle_message_typing (u : String) (st : ServerState) (j : Json)
    (chat_id user_id : String) (is_typing : Bool)
    (hp : parseWs j = some (.Typing chat_id user_id is_typing)) :
    handle_message j u st
      = st.broadcast (serializeWs (.Typing chat_id u is_typing)) (some u) := by
  simp [handle_message, hp, enforce_identity]

theorem handle_message_presence (u : String) (st : ServerState) (j : Json)
    (user_id : String) (is_online : Bool) (last_seen : Option Int)
    (hp : parseWs j = some (.Presence user_id is_online last_seen)) :
    handle_message j u st
      = st.broadcast (serializeWs (.Presence u is_online last_seen)) (some u) := by
  simp [handle_message, hp, enforce_identity]

theorem handle_message_delivery (u : String) (st : ServerState) (j : Json)
    (message_id chat_id sender_id delivered_to : String)
    (hp : parseWs j = some (.DeliveryReceipt message_id chat_id sender_id delivered_to)) :
    handle_message j u st
      = (st.send_or_queue sender_id
          (serializeWs (.DeliveryReceipt message_id chat_id sender_id u))).1 := by
  simp [handle_message, hp, enforce_identity]

theorem handle_message_read (u : String) (st : ServerState) (j : Json)
    (chat_id sender_id user_id : String) (message_ids : List String)
    (hp : parseWs j = some (.ReadReceipt chat_id sender_id user_id message_ids)) :
    handle_message j u st
      = (st.send_or_queue sender_id
          (serializeWs (.ReadReceipt chat_id sender_id u message_ids))).1 := by
  simp [handle_message, hp, enforce_identity]

theorem handle_message_profile (u : String) (st : ServerState) (j : Json)
    (user_id name : String) (phone avatar_url about avatar_data : Option String)
    (hp : parseWs j = some (.ProfileUpdate user_id name phone avatar_url about avatar_data)) :
    handle_message j u st
      = st.broadcast (serializeWs (.ProfileUpdate u name phone avatar_url about avatar_data)) (some u) := by
  simp [handle_message, hp, enforce_identity]

theorem handle_message_connect (u : String) (st : ServerState) (j : Json)
    (user_id : String) (token : Option String)
    (hp : parseWs j = some (.Connect user_id token)) :
    handle_message j u st = st := by
  simp [handle_message, hp, enforce_identity]

theorem handle_message_auth_response (u : String) (st : ServerState) (j : Json)
    (success : Bool) (message : String)
    (hp : parseWs j = some (.AuthResponse success message)) :
    handle_message j u st = st := by
  simp [handle_message, hp, enforce_identity]

theorem handle_message_error (u : String) (st : ServerState) (j : Json)
    (message : String)
    (hp : parseWs j = some (.Error message)) :
    handle_message j u st = st := by
  simp [handle_message, hp, enforce_identity]

/-- Claim C8: for every well-formed envelope value of the closed tagged sum,
all nine variants, with optional fields present or absent, parsing the
serialization yields exactly the original value. -/
theorem c8_roundtrip (x : WsMessage) : parseWs (serializeWs x) = some x :=
  parse_serialize x

/-- Claim C6: when the access-token environment variable is set to a
non-empty value, a Connect authenticates exactly when it carries that
token, and a missing or mismatching token closes the session (None,
regardless of any later frames); when the variable is unset or empty,
a Connect authenticates with any or no token. -/
theorem c6_token_auth (expected user_id : String) (token : Option String)
    (evs : List RecvEvent) (hne : expected ≠ "") :
    (wait_for_connect (some expected)
        (RecvEvent.text (serializeWs (.Connect user_id token)) :: evs)
      = if token = some expected then some user_id else none)
    ∧ wait_for_connect none
        (RecvEvent.text (serializeWs (.Connect user_id token)) :: evs) = some user_id
    ∧ wait_for_connect (some "")
        (RecvEvent.text (serializeWs (.Connect user_id token)) :: evs) = some user_id := by
  refine ⟨?_, ?_, ?_⟩
  · simp only [wait_for_connect, parse_serialize]
    rw [if_pos hne]
    cases token with
    | none => simp
    | some t =>
        by_cases ht : t = expected
        · simp [ht]
        · simp [ht]
  · simp [wait_for_connect, parse_serialize]
  · simp [wait_for_connect, parse_serialize]

/-- Witness for C6: a concrete non-empty expected token, matched and checked
at a concrete Connect frame. -/
theorem c6_token_auth_witness :
    (wait_for_connect (some "sekrit")
        (RecvEvent.text (serializeWs (.Connect "alice" (some "sekrit"))) :: [])
      = if (some "sekrit" : Option String) = some "sekrit" then some "alice" else none)
    ∧ wait_for_connect none
        (RecvEvent.text (serializeWs (.Connect "alice" (some "sekrit"))) :: []) = some "alice"
    ∧ wait_for_connect (some "")
        (RecvEvent.text (serializeWs (.Connect "alice" (some "sekrit"))) :: []) = some "alice" :=
  c6_token_auth "sekrit" "alice" (some "sekrit") [] (by decide)

/-- Counterexample to C4 as stated: during the handshake, a frame that fails
to parse and a frame that parses to a non-Connect variant are skipped, and a
later Connect still authenticates, so neither causes a transition to Closed;
and a Connect with an empty user_id authenticates. -/
theorem c4_counterexample :
    wait_for_connect none
        [RecvEvent.text (Json.str "garbage"),
         RecvEvent.text (serializeWs (.Typing "chat1" "mallory" true)),
         RecvEvent.text (serializeWs (.Connect "alice" none))] = some "alice"
    ∧ wait_for_connect none [RecvEvent.text (serializeWs (.Connect "" none))] = some "" :=
  ⟨rfl, rfl⟩

/-- Claim C4 as amended: during the handshake, frames that fail to parse or
parse to a non-Connect variant (and non-text results) are logged and
skipped — the session stays in Handshake and closes only when the deadline
elapses or the stream ends; the first Connect within the deadline that
passes the token check authenticates, and user_id is not validated, so an
empty user_id authenticates too. -/
theorem c4_handshake_amended (env : Option String) (evs : List RecvEvent) :
    wait_for_connect env [] = none
    ∧ (∀ j, parseWs j = none →
        wait_for_connect env (RecvEvent.text j :: evs) = wait_for_connect env evs)
    ∧ (∀ j m, parseWs j = some m → (∀ user_id token, m ≠ .Connect user_id token) →
        wait_for_connect env (RecvEvent.text j :: evs) = wait_for_connect env evs)
    ∧ wait_for_connect env (RecvEvent.notText :: evs) = wait_for_connect env evs
    ∧ (∀ j user_id, parseWs j = some (.Connect user_id none) →
        (env = none ∨ env = some "") →
        wait_for_connect env (RecvEvent.text j :: evs) = some user_id) := by
  refine ⟨rfl, ?_, ?_, rfl, ?_⟩
  · intro j hj
    simp [wait_for_connect, hj]
  · intro j m hj hnc
    cases m with
    | Connect user_id token => exact absurd rfl (hnc user_id token)
    | ChatMessage a b c d e f g => simp [wait_for_connect, hj]
    | Typing a b c => simp [wait_for_connect, hj]
    | Presence a b c => simp [wait_for_connect, hj]
    | DeliveryReceipt a b c d => simp [wait_for_connect, hj]
    | ReadReceipt a b c d => simp [wait_for_connect, hj]
    | AuthResponse a b => simp [wait_for_connect, hj]
    | Error a => simp [wait_for_connect, hj]
    | ProfileUpdate a b c d e f => simp [wait_for_connect, hj]
  · intro j user_id hj henv
    rcases henv with h | h <;> subst h <;> simp [wait_for_connect, hj]

/-- Witness for C4's amended claim: a parse failure is skipped, and a
concrete Connect then authenticates. -/
theorem c4_handshake_amended_witness :
    wait_for_connect none
        (RecvEvent.text Json.null :: [RecvEvent.text (serializeWs (.Connect "bob" none))])
      = wait_for_connect none [RecvEvent.text (serializeWs (.Connect "bob" none))]
    ∧ wait_for_connect none (RecvEvent.text (serializeWs (.Connect "bob" none)) :: [])
      = some "bob" :=
  ⟨(c4_handshake_amended none [RecvEvent.text (serializeWs (.Connect "bob" none))]).2.1
      Json.null rfl,
   (c4_handshake_amended none []).2.2.2.2 (serializeWs (.Connect "bob" none)) "bob" rfl
      (Or.inl rfl)⟩

/-- Counterexample to C5 as stated: a user whose single registered channel is
closed is still reported online by is_online, while the directory holds no
non-closed channel, so the claimed equivalence fails. -/
theorem c5_counterexample :
    ¬ ((ServerState.mk [("alice", [⟨true, []⟩])] []).is_online "alice" = true
        ↔ has_live_channel (ServerState.mk [("alice", [⟨true, []⟩])] []) "alice" = true) := by
  decide

/-- Claim C5 as amended: with distinct directory keys, is_online agrees with
membership in online_users, and both hold exactly when the directory holds an
entry for the user with a non-empty channel list — closed channels included,
so a user whose every channel is closed stays reported online until
remove_client prunes the entry. -/
theorem c5_online_amended (st : ServerState) (u : String)
    (h : (st.clients.map Prod.fst).Nodup) :
    (st.is_online u = true ↔ u ∈ st.online_users)
    ∧ (st.is_online u = true ↔ ∃ txs, lookupAssoc st.clients u = some txs ∧ txs ≠ []) := by
  constructor
  · rcases st with ⟨cs, ps⟩
    exact is_online_iff_mem_online_users cs ps u h
  · unfold ServerState.is_online
    cases hl : lookupAssoc st.clients u with
    | none => simp
    | some txs => simp

/-- Witness for C5's amended claim at a concrete one-user directory. -/
theorem c5_online_amended_witness :
    ((ServerState.mk [("alice", [⟨false, []⟩])] []).is_online "alice" = true
      ↔ "alice" ∈ (ServerState.mk [("alice", [⟨false, []⟩])] []).online_users)
    ∧ ((ServerState.mk [("alice", [⟨false, []⟩])] []).is_online "alice" = true
      ↔ ∃ txs, lookupAssoc (ServerState.mk [("alice", [⟨false, []⟩])] []).clients "alice" = some txs
          ∧ txs ≠ []) :=
  c5_online_amended (ServerState.mk [("alice", [⟨false, []⟩])] []) "alice" (by decide)

/-- Claim C2: for every parseable frame in an authenticated session, routing
dispatches by variant exactly as stated: ChatMessage to send_or_queue on its
recipient_id, DeliveryReceipt and ReadReceipt to send_or_queue on their
sender_id (the receipt's destination), Typing, Presence and ProfileUpdate to
broadcast excluding the session's user, and Connect, AuthResponse and Error
are silently ignored with no state change and no send. -/
theorem c2_routing_dispatch (u : String) (st : ServerState) (j : Json) (m : WsMessage)
    (hp : parseWs j = some m) :
    (∀ id chat_id sender_id sender_name recipient_id content timestamp,
        m = .ChatMessage id chat_id sender_id sender_name recipient_id content timestamp →
        handle_message j u st
          = (st.send_or_queue recipient_id (serializeWs (enforce_identity u m))).1)
    ∧ (∀ message_id chat_id sender_id delivered_to,
        m = .DeliveryReceipt message_id chat_id sender_id delivered_to →
        handle_message j u st
          = (st.send_or_queue sender_id (serializeWs (enforce_identity u m))).1)
    ∧ (∀ chat_id sender_id user_id message_ids,
        m = .ReadReceipt chat_id sender_id user_id message_ids →
        handle_message j u st
          = (st.send_or_queue sender_id (serializeWs (enforce_identity u m))).1)
    ∧ (∀ chat_id user_id is_typing,
        m = .Typing chat_id user_id is_typing →
        handle_message j u st = st.broadcast (serializeWs (enforce_identity u m)) (some u))
    ∧ (∀ user_id is_online last_seen,
        m = .Presence user_id is_online last_seen →
        handle_message j u st = st.broadcast (serializeWs (enforce_identity u m)) (some u))
    ∧ (∀ user_id name phone avatar_url about avatar_data,
        m = .ProfileUpdate user_id name phone avatar_url about avatar_data →
        handle_message j u st = st.broadcast (serializeWs (enforce_identity u m)) (some u))
    ∧ (∀ user_id token, m = .Connect user_id token → handle_message j u st = st)
    ∧ (∀ success message, m = .AuthResponse success message → handle_message j u st = st)
    ∧ (∀ message, m = .Error message → handle_message j u st = st) := by
  refine ⟨?_, ?_, ?_, ?_, ?_, ?_, ?_, ?_, ?_⟩
  · intro id chat_id sender_id sender_name recipient_id content timestamp hm
    subst hm
    rw [handle_message_chat u st j id chat_id sender_id sender_name recipient_id content
      timestamp hp]
    rfl
  · intro message_id chat_id sender_id delivered_to hm
    subst hm
    rw [handle_message_delivery u st j message_id chat_id sender_id delivered_to hp]
    rfl
  · intro chat_id sender_id user_id message_ids hm
    subst hm
    rw [handle_message_read u st j chat_id sender_id user_id message_ids hp]
    rfl
  · intro chat_id user_id is_typing hm
    subst hm
    rw [handle_message_typing u st j chat_id user_id is_typing hp]
    rfl
  · intro user_id is_online last_seen hm
    subst hm
    rw [handle_message_presence u st j user_id is_online last_seen hp]
    rfl
  · intro user_id name phone avatar_url about avatar_data hm
    subst hm
    rw [handle_message_profile u st j user_id name phone avatar_url about avatar_data hp]
    rfl
  · intro user_id token hm
    subst hm
    exact handle_message_connect u st j user_id token hp
  · intro success message hm
    subst hm
    exact handle_message_auth_response u st j success message hp
  · intro message hm
    subst hm
    exact handle_message_error u st j message hp

/-- Witness for C2 at a concrete Typing frame on the empty state. -/
theorem c2_routing_dispatch_witness :
    (∀ id chat_id sender_id sender_name recipient_id content timestamp,
        (WsMessage.Typing "chat1" "mallory" true)
            = .ChatMessage id chat_id sender_id sender_name recipient_id content timestamp →
        handle_message (serializeWs (.Typing "chat1" "mallory" true)) "alice" ServerState.new
          = (ServerState.new.send_or_queue recipient_id
              (serializeWs (enforce_identity "alice" (.Typing "chat1" "mallory" true)))).1)
    ∧ (∀ message_id chat_id sender_id delivered_to,
        (WsMessage.Typing "chat1" "mallory" true)
            = .DeliveryReceipt message_id chat_id sender_id delivered_to →
        handle_message (serializeWs (.Typing "chat1" "mallory" true)) "alice" ServerState.new
          = (ServerState.new.send_or_queue sender_id
              (serializeWs (enforce_identity "alice" (.Typing "chat1" "mallory" true)))).1)
    ∧ (∀ chat_id sender_id user_id message_ids,
        (WsMessage.Typing "chat1" "mallory" true)
            = .ReadReceipt chat_id sender_id user_id message_ids →
        handle_message (serializeWs (.Typing "chat1" "mallory" true)) "alice" ServerState.new
          = (ServerState.new.send_or_queue sender_id
              (serializeWs (enforce_identity "alice" (.Typing "chat1" "mallory" true)))).1)
    ∧ (∀ chat_id user_id is_typing,
        (WsMessage.Typing "chat1" "mallory" true) = .Typing chat_id user_id is_typing →
        handle_message (serializeWs (.Typing "chat1" "mallory" true)) "alice" ServerState.new
          = ServerState.new.broadcast
              (serializeWs (enforce_identity "alice" (.Typing "chat1" "mallory" true)))
              (some "alice"))
    ∧ (∀ user_id is_online last_seen,
        (WsMessage.Typing "chat1" "mallory" true) = .Presence user_id is_online last_seen →
        handle_message (serializeWs (.Typing "chat1" "mallory" true)) "alice" ServerState.new
          = ServerState.new.broadcast
              (serializeWs (enforce_identity "alice" (.Typing "chat1" "mallory" true)))
              (some "alice"))
    ∧ (∀ user_id name phone avatar_url about avatar_data,
        (WsMessage.Typing "chat1" "mallory" true)
            = .ProfileUpdate user_id name phone avatar_url about avatar_data →
        handle_message (serializeWs (.Typing "chat1" "mallory" true)) "alice" ServerState.new
          = ServerState.new.broadcast
              (serializeWs (enforce_identity "alice" (.Typing "chat1" "mallory" true)))
              (some "alice"))
    ∧ (∀ user_id token, (WsMessage.Typing "chat1" "mallory" true) = .Connect user_id token →
        handle_message (serializeWs (.Typing "chat1" "mallory" true)) "alice" ServerState.new
          = ServerState.new)
    ∧ (∀ success message,
        (WsMessage.Typing "chat1" "mallory" true) = .AuthResponse success message →
        handle_message (serializeWs (.Typing "chat1" "mallory" true)) "alice" ServerState.new
          = ServerState.new)
    ∧ (∀ message, (WsMessage.Typing "chat1" "mallory" true) = .Error message →
        handle_message (serializeWs (.Typing "chat1" "mallory" true)) "alice" ServerState.new
          = ServerState.new) :=
  c2_routing_dispatch "alice" ServerState.new (serializeWs (.Typing "chat1" "mallory" true))
    (.Typing "chat1" "mallory" true) rfl

/-- Claim C1: for a frame that parses as one of the six client-authored
variants, the enforced envelope carries the session user in its identity
field, only that field is changed (all other fields are preserved verbatim,
whatever identity the inbound frame carried), and the only text
handle_message can newly place anywhere in the state is the re-serialization
of the enforced envelope — so the original inbound text is never routed. -/
theorem c1_identity_overwrite (u : String) (st : ServerState) (j : Json) (m : WsMessage)
    (hp : parseWs j = some m) :
    ((identityField m).isSome = true → identityField (enforce_identity u m) = some u)
    ∧ (∀ id chat_id sender_id sender_name recipient_id content timestamp,
        enforce_identity u
            (.ChatMessage id chat_id sender_id sender_name recipient_id content timestamp)
          = .ChatMessage id chat_id u sender_name recipient_id content timestamp)
    ∧ (∀ chat_id user_id is_typing,
        enforce_identity u (.Typing chat_id user_id is_typing) = .Typing chat_id u is_typing)
    ∧ (∀ user_id is_online last_seen,
        enforce_identity u (.Presence user_id is_online last_seen)
          = .Presence u is_online last_seen)
    ∧ (∀ message_id chat_id sender_id delivered_to,
        enforce_identity u (.DeliveryReceipt message_id chat_id sender_id delivered_to)
          = .DeliveryReceipt message_id chat_id sender_id u)
    ∧ (∀ chat_id sender_id user_id message_ids,
        enforce_identity u (.ReadReceipt chat_id sender_id user_id message_ids)
          = .ReadReceipt chat_id sender_id u message_ids)
    ∧ (∀ user_id name phone avatar_url about avatar_data,
        enforce_identity u (.ProfileUpdate user_id name phone avatar_url about avatar_data)
          = .ProfileUpdate u name phone avatar_url about avatar_data)
    ∧ (∀ x ∈ textsIn (handle_message j u st),
        x ∈ textsIn st ∨ x = serializeWs (enforce_identity u m)) := by
  refine ⟨?_, ?_, ?_, ?_, ?_, ?_, ?_, ?_⟩
  · intro hs
    cases m <;> simp_all [identityField, enforce_identity]
  · intro a b c d e f g; rfl
  · intro a b c; rfl
  · intro a b c; rfl
  · intro a b c d; rfl
  · intro a b c d; rfl
  · intro a b c d e f; rfl
  · intro x hx
    cases m with
    | ChatMessage id chat_id sender_id sender_name recipient_id content timestamp =>
        rw [handle_message_chat u st j id chat_id sender_id sender_name recipient_id content
          timestamp hp] at hx
        exact mem_textsIn_send_or_queue st recipient_id _ x hx
    | Typing chat_id user_id is_typing =>
        rw [handle_message_typing u st j chat_id user_id is_typing hp] at hx
        exact mem_textsIn_broadcast st (some u) _ x hx
    | Presence user_id is_online last_seen =>
        rw [handle_message_presence u st j user_id is_online last_seen hp] at hx
        exact mem_textsIn_broadcast st (some u) _ x hx
    | DeliveryReceipt message_id chat_id sender_id delivered_to =>
        rw [handle_message_delivery u st j message_id chat_id sender_id delivered_to hp] at hx
        exact mem_textsIn_send_or_queue st sender_id _ x hx
    | ReadReceipt chat_id sender_id user_id message_ids =>
        rw [handle_message_read u st j chat_id sender_id user_id message_ids hp] at hx
        exact mem_textsIn_send_or_queue st sender_id _ x hx
    | ProfileUpdate user_id name phone avatar_url about avatar_data =>
        rw [handle_message_profile u st j user_id name phone avatar_url about avatar_data hp] at hx
        exact mem_textsIn_broadcast st (some u) _ x hx
    | Connect user_id token =>
        rw [handle_message_connect u st j user_id token hp] at hx
        exact Or.inl hx
    | AuthResponse success message =>
        rw [handle_message_auth_response u st j success message hp] at hx
        exact Or.inl hx
    | Error message =>
        rw [handle_message_error u st j message hp] at hx
        exact Or.inl hx

/-- Witness for C1 at a concrete spoofed Presence frame on the empty state. -/
theorem c1_identity_overwrite_witness :
    ((identityField (.Presence "spoof" true none)).isSome = true →
        identityField (enforce_identity "srv" (.Presence "spoof" true none)) = some "srv")
    ∧ (∀ id chat_id sender_id sender_name recipient_id content timestamp,
        enforce_identity "srv"
            (.ChatMessage id chat_id sender_id sender_name recipient_id content timestamp)
          = .ChatMessage id chat_id "srv" sender_name recipient_id content timestamp)
    ∧ (∀ chat_id user_id is_typing,
        enforce_identity "srv" (.Typing chat_id user_id is_typing)
          = .Typing chat_id "srv" is_typing)
    ∧ (∀ user_id is_online last_seen,
        enforce_identity "srv" (.Presence user_id is_online last_seen)
          = .Presence "srv" is_online last_seen)
    ∧ (∀ message_id chat_id sender_id delivered_to,
        enforce_identity "srv" (.DeliveryReceipt message_id chat_id sender_id delivered_to)
          = .DeliveryReceipt message_id chat_id sender_id "srv")
    ∧ (∀ chat_id sender_id user_id message_ids,
        enforce_identity "srv" (.ReadReceipt chat_id sender_id user_id message_ids)
          = .ReadReceipt chat_id sender_id "srv" message_ids)
    ∧ (∀ user_id name phone avatar_url about avatar_data,
        enforce_identity "srv" (.ProfileUpdate user_id name phone avatar_url about avatar_data)
          = .ProfileUpdate "srv" name phone avatar_url about avatar_data)
    ∧ (∀ x ∈ textsIn (handle_message (serializeWs (.Presence "spoof" true none)) "srv"
          ServerState.new),
        x ∈ textsIn ServerState.new
          ∨ x = serializeWs (enforce_identity "srv" (.Presence "spoof" true none))) :=
  c1_identity_overwrite "srv" ServerState.new (serializeWs (.Presence "spoof" true none))
    (.Presence "spoof" true none) rfl

/-- Claim C9: for distinct users u and v, each state operation on u leaves
v's directory entry (channel list and order) and v's pending queue
unchanged. -/
theorem c9_per_user_isolation (u v : String) (st : ServerState) (hne : v ≠ u) :
    (∀ tx : Channel,
        lookupAssoc (st.add_client u tx).clients v = lookupAssoc st.clients v
        ∧ (st.add_client u tx).pending_messages = st.pending_messages)
    ∧ (lookupAssoc (st.remove_client u).clients v = lookupAssoc st.clients v
        ∧ (st.remove_client u).pending_messages = st.pending_messages)
    ∧ (∀ m : Json,
        (st.queue_message u m).clients = st.clients
        ∧ lookupAssoc (st.queue_message u m).pending_messages v
            = lookupAssoc st.pending_messages v)
    ∧ ((st.take_pending_messages u).2.clients = st.clients
        ∧ lookupAssoc (st.take_pending_messages u).2.pending_messages v
            = lookupAssoc st.pending_messages v)
    ∧ (∀ m : Json,
        lookupAssoc (st.send_to_user u m).1.clients v = lookupAssoc st.clients v
        ∧ (st.send_to_user u m).1.pending_messages = st.pending_messages) := by
  refine ⟨?_, ⟨?_, rfl⟩, ?_, ⟨rfl, ?_⟩, ?_⟩
  · intro tx
    exact ⟨lookupAssoc_updateAssoc_ne st.clients u v _ _ hne, rfl⟩
  · exact lookupAssoc_removeClientList_ne st.clients u v hne
  · intro m
    exact ⟨rfl, lookupAssoc_updateAssoc_ne st.pending_messages u v _ _ hne⟩
  · exact lookupAssoc_removeAssoc_ne st.pending_messages u v hne
  · intro m
    exact ⟨lookupAssoc_sendClients_ne st.clients u v m hne, rfl⟩

/-- Witness for C9 at concrete distinct users on the empty state. -/
theorem c9_per_user_isolation_witness :
    (∀ tx : Channel,
        lookupAssoc (ServerState.new.add_client "u1" tx).clients "v1"
            = lookupAssoc ServerState.new.clients "v1"
        ∧ (ServerState.new.add_client "u1" tx).pending_messages
            = ServerState.new.pending_messages)
    ∧ (lookupAssoc (ServerState.new.remove_client "u1").clients "v1"
            = lookupAssoc ServerState.new.clients "v1"
        ∧ (ServerState.new.remove_client "u1").pending_messages
            = ServerState.new.pending_messages)
    ∧ (∀ m : Json,
        (ServerState.new.queue_message "u1" m).clients = ServerState.new.clients
        ∧ lookupAssoc (ServerState.new.queue_message "u1" m).pending_messages "v1"
            = lookupAssoc ServerState.new.pending_messages "v1")
    ∧ ((ServerState.new.take_pending_messages "u1").2.clients = ServerState.new.clients
        ∧ lookupAssoc (ServerState.new.take_pending_messages "u1").2.pending_messages "v1"
            = lookupAssoc ServerState.new.pending_messages "v1")
    ∧ (∀ m : Json,
        lookupAssoc (ServerState.new.send_to_user "u1" m).1.clients "v1"
            = lookupAssoc ServerState.new.clients "v1"
        ∧ (ServerState.new.send_to_user "u1" m).1.pending_messages
            = ServerState.new.pending_messages) :=
  c9_per_user_isolation "u1" "v1" ServerState.new (by decide)

/-- Claim C10: a ChatMessage whose recipient_id equals the authenticated
sender u is routed back to u itself: its enforced re-serialization goes
through send_or_queue on u, so it is delivered to u's channels when one is
live and queued for u otherwise — the no-echo guarantee holds only when
recipient_id differs from the sender. -/
theorem c10_self_unicast (u : String) (st : ServerState) (j : Json)
    (id chat_id sender_id sender_name content : String) (timestamp : Int)
    (hp : parseWs j = some (.ChatMessage id chat_id sender_id sender_name u content timestamp)) :
    handle_message j u st
      = (st.send_or_queue u
          (serializeWs (.ChatMessage id chat_id u sender_name u content timestamp))).1
    ∧ (has_live_channel st u = true →
        lookupAssoc (handle_message j u st).clients u
          = (lookupAssoc st.clients u).map (fun txs =>
              (sendToList txs
                (serializeWs (.ChatMessage id chat_id u sender_name u content timestamp))).1)
        ∧ (handle_message j u st).pending_messages = st.pending_messages)
    ∧ (has_live_channel st u = false →
        (handle_message j u st).clients = st.clients
        ∧ lookupAssoc (handle_message j u st).pending_messages u
          = some (pushPending ((lookupAssoc st.pending_messages u).getD [])
              (serializeWs (.ChatMessage id chat_id u sender_name u content timestamp)))) := by
  have h0 := handle_message_chat u st j id chat_id sender_id sender_name u content timestamp hp
  refine ⟨h0, ?_, ?_⟩
  · intro hlive
    have hsend : (st.send_to_user u
        (serializeWs (.ChatMessage id chat_id u sender_name u content timestamp))).2 = true := by
      rw [send_to_user_snd]
      exact hlive
    rw [h0]
    unfold ServerState.send_or_queue
    simp only [hsend, if_true]
    exact ⟨lookupAssoc_sendClients_self st.clients u _, rfl⟩
  · intro hdead
    have hsend : (st.send_to_user u
        (serializeWs (.ChatMessage id chat_id u sender_name u content timestamp))).2 = false := by
      rw [send_to_user_snd]
      exact hdead
    have hfst := send_to_user_fst_no_live st u
      (serializeWs (.ChatMessage id chat_id u sender_name u content timestamp)) hdead
    rw [h0]
    unfold ServerState.send_or_queue
    simp only [hsend, Bool.false_eq_true, if_false]
    rw [hfst]
    exact ⟨rfl, lookupAssoc_updateAssoc_self st.pending_messages u _ []⟩

/-- Witness for C10: a self-addressed ChatMessage from alice with one live
channel for alice. -/
theorem c10_self_unicast_witness :
    handle_message
        (serializeWs (.ChatMessage "m1" "c1" "MALLORY" "A" "alice" "hi" 1)) "alice"
        (ServerState.mk [("alice", [⟨false, []⟩])] [])
      = ((ServerState.mk [("alice", [⟨false, []⟩])] []).send_or_queue "alice"
          (serializeWs (.ChatMessage "m1" "c1" "alice" "A" "alice" "hi" 1))).1
    ∧ (has_live_channel (ServerState.mk [("alice", [⟨false, []⟩])] []) "alice" = true →
        lookupAssoc (handle_message
            (serializeWs (.ChatMessage "m1" "c1" "MALLORY" "A" "alice" "hi" 1)) "alice"
            (ServerState.mk [("alice", [⟨false, []⟩])] [])).clients "alice"
          = (lookupAssoc (ServerState.mk [("alice", [⟨false, []⟩])] []).clients "alice").map
              (fun txs => (sendToList txs
                (serializeWs (.ChatMessage "m1" "c1" "alice" "A" "alice" "hi" 1))).1)
        ∧ (handle_message
            (serializeWs (.ChatMessage "m1" "c1" "MALLORY" "A" "alice" "hi" 1)) "alice"
            (ServerState.mk [("alice", [⟨false, []⟩])] [])).pending_messages
          = (ServerState.mk [("alice", [⟨false, []⟩])] []).pending_messages)
    ∧ (has_live_channel (ServerState.mk [("alice", [⟨false, []⟩])] []) "alice" = false →
        (handle_message
            (serializeWs (.ChatMessage "m1" "c1" "MALLORY" "A" "alice" "hi" 1)) "alice"
            (ServerState.mk [("alice", [⟨false, []⟩])] [])).clients
          = (ServerState.mk [("alice", [⟨false, []⟩])] []).clients
        ∧ lookupAssoc (handle_message
            (serializeWs (.ChatMessage "m1" "c1" "MALLORY" "A" "alice" "hi" 1)) "alice"
            (ServerState.mk [("alice", [⟨false, []⟩])] [])).pending_messages "alice"
          = some (pushPending
              ((lookupAssoc (ServerState.mk [("alice", [⟨false, []⟩])]
                  []).pending_messages "alice").getD [])
              (serializeWs (.ChatMessage "m1" "c1" "alice" "A" "alice" "hi" 1)))) :=
  c10_self_unicast "alice" (ServerState.mk [("alice", [⟨false, []⟩])] [])
    (serializeWs (.ChatMessage "m1" "c1" "MALLORY" "A" "alice" "hi" 1))
    "m1" "c1" "MALLORY" "A" "hi" 1 rfl

theorem take_pending_fst (st : ServerState) (u : String) :
    (st.take_pending_messages u).1 = (lookupAssoc st.pending_messages u).getD [] := rfl

set_option maxRecDepth 4000

/-- Claim C3: starting from the empty state, after any sequence of queue and
take operations every user's pending count stays at most 1000; and pushing
1001 messages onto an empty queue then taking returns exactly the last 1000
in push order, the oldest dropped. -/
theorem c3_queue_bound_and_overflow :
    (∀ ops : List QueueOp, ∀ u : String,
        (applyQueueOps ServerState.new ops).pending_count u ≤ MAX_PENDING_MESSAGES_PER_USER)
    ∧ (∀ u : String, ∀ f : Nat → Json,
        ((applyQueueOps ServerState.new
            ((List.range 1001).map fun i => QueueOp.queue u (f i))).take_pending_messages u).1
          = ((List.range 1001).map f).drop 1
        ∧ (((List.range 1001).map f).drop 1).length = 1000) := by
  constructor
  · intro ops u
    have hb := applyQueueOps_bounded ops ServerState.new
      (by intro p hp; simp [ServerState.new] at hp)
    unfold ServerState.pending_count
    cases hl : lookupAssoc (applyQueueOps ServerState.new ops).pending_messages u with
    | none => simp [MAX_PENDING_MESSAGES_PER_USER]
    | some q =>
        simp only [Option.getD_some]
        exact hb (u, q) (lookupAssoc_mem _ u q hl)
  · intro u f
    constructor
    · rw [take_pending_fst]
      have hmap : ((List.range 1001).map fun i => QueueOp.queue u (f i))
          = ((List.range 1001).map f).map fun m => QueueOp.queue u m := by
        rw [List.map_map]
        rfl
      rw [hmap, lookup_queue_fold]
      rw [show (lookupAssoc ServerState.new.pending_messages u).getD [] = ([] : List Json)
        from rfl]
      rw [show (1001 : Nat) = Nat.succ 1000 from rfl, List.range_succ]
      rw [List.map_append, List.foldl_append]
      rw [foldl_pushPending_small ((List.range 1000).map f) []
        (by simp [MAX_PENDING_MESSAGES_PER_USER])]
      simp only [List.nil_append, List.map_cons, List.map_nil, List.foldl_cons, List.foldl_nil]
      unfold pushPending
      rw [if_pos (by simp [MAX_PENDING_MESSAGES_PER_USER])]
      rw [List.drop_append_of_le_length (by simp)]
    · simp only [List.length_drop, List.length_map, List.length_range]

/-- Counterexample to C7 as stated: user u already has one open registered
channel (a concurrently authenticating session that drained an empty queue
first) when a second session of u completes the transition; the drain uses
send_to_user, so the pre-existing channel receives the drained entry too —
it is not delivered only to the newly authenticating session. -/
theorem c7_counterexample :
    auth_transition (ServerState.mk [("u", [⟨false, []⟩])] [("u", [Json.str "m1"])]) "u"
        ⟨false, []⟩
      = ServerState.mk [("u", [⟨false, [Json.str "m1"]⟩, ⟨false, [Json.str "m1"]⟩])] [] := rfl

/-- Claim C7 as amended: on the Handshake to Authenticated transition for a
user u with no previously registered channel, every pending entry is drained:
the new session's channel ends holding some prefix (the roster presence
frames) followed by the pending entries in exactly their FIFO queue order,
u's pending entry is removed, and any frame routed to u afterwards lands
strictly after the drained block; when u has other concurrently registered
channels the drain instead goes to every registered channel of u, not only
the new session's. -/
theorem c7_drain_amended (st : ServerState) (u : String)
    (hfresh : lookupAssoc st.clients u = none) :
    ∃ pre : List Json,
      lookupAssoc (auth_transition st u ⟨false, []⟩).clients u
        = some [⟨false, pre ++ (lookupAssoc st.pending_messages u).getD []⟩]
      ∧ (auth_transition st u ⟨false, []⟩).pending_messages
          = removeAssoc st.pending_messages u
      ∧ ∀ t : Json,
          lookupAssoc ((auth_transition st u ⟨false, []⟩).send_to_user u t).1.clients u
            = some [⟨false,
                (pre ++ (lookupAssoc st.pending_messages u).getD []) ++ [t]⟩] := by
  set E1 := st.add_client u ⟨false, []⟩ with hE1
  set E2 := E1.broadcast (serializeWs (.Presence u true none)) (some u) with hE2
  set E3 := E2.online_users.foldl
    (fun s v => if v ≠ u then (s.send_to_user u (serializeWs (.Presence v true none))).1 else s)
    E2 with hE3
  set E4 := E3.take_pending_messages u with hE4
  set E5 := E4.1.foldl (fun s m => (s.send_to_user u m).1) E4.2 with hE5
  set R := ((E2.online_users.filter fun w => w ≠ u).map
    fun v => serializeWs (.Presence v true none)) with hR
  set P := (lookupAssoc st.pending_messages u).getD [] with hP
  have h1 : lookupAssoc E1.clients u = some [⟨false, []⟩] := by
    rw [hE1]
    unfold ServerState.add_client
    simp only
    rw [lookupAssoc_updateAssoc_self, hfresh]
    rfl
  have h2 : lookupAssoc E2.clients u = some [⟨false, []⟩] := by
    rw [hE2]
    unfold ServerState.broadcast
    simp only
    rw [lookupAssoc_broadcastClients_excl]
    exact h1
  have hfold : E3 = R.foldl (fun s m => (s.send_to_user u m).1) E2 := by
    rw [hE3, hR]
    exact roster_fold_eq u (fun v => serializeWs (.Presence v true none)) E2.online_users E2
  have h3 : lookupAssoc E3.clients u = some [⟨false, R⟩] := by
    rw [hfold, lookupAssoc_sendSeq_self u R E2, h2, Option.map_some']
    rw [sendListFold_single_open R []]
    rw [List.nil_append]
  have h3p : E3.pending_messages = st.pending_messages := by
    rw [hfold, sendSeq_pending u R E2]
    rw [hE2, hE1]
    rfl
  have hP1 : E4.1 = P := by
    rw [hE4, take_pending_fst, h3p, hP]
  have h4 : lookupAssoc E4.2.clients u = some [⟨false, R⟩] := h3
  have h4p : E4.2.pending_messages = removeAssoc st.pending_messages u := by
    rw [hE4]
    show removeAssoc E3.pending_messages u = removeAssoc st.pending_messages u
    rw [h3p]
  have h5 : lookupAssoc E5.clients u = some [⟨false, R ++ P⟩] := by
    rw [hE5, lookupAssoc_sendSeq_self u E4.1 E4.2, h4, Option.map_some']
    rw [sendListFold_single_open E4.1 R, hP1]
  have h5p : E5.pending_messages = removeAssoc st.pending_messages u := by
    rw [hE5, sendSeq_pending u E4.1 E4.2]
    exact h4p
  have h6 : ∀ t : Json,
      lookupAssoc ((E5.send_to_user u t).1).clients u = some [⟨false, (R ++ P) ++ [t]⟩] := by
    intro t
    show lookupAssoc (sendClients E5.clients u t).1 u = some [⟨false, (R ++ P) ++ [t]⟩]
    rw [lookupAssoc_sendClients_self, h5, Option.map_some']
    simp [sendToList, Channel.send]
  exact ⟨R, h5, h5p, h6⟩

/-- Witness for C7's amended claim: bob authenticates fresh while two
messages are pending for bob and alice is online. -/
theorem c7_drain_amended_witness :
    ∃ pre : List Json,
      lookupAssoc (auth_transition
          (ServerState.mk [("alice", [⟨false, []⟩])] [("bob", [Json.str "m1", Json.str "m2"])])
          "bob" ⟨false, []⟩).clients "bob"
        = some [⟨false, pre ++ (lookupAssoc (ServerState.mk [("alice", [⟨false, []⟩])]
            [("bob", [Json.str "m1", Json.str "m2"])]).pending_messages "bob").getD []⟩]
      ∧ (auth_transition
          (ServerState.mk [("alice", [⟨false, []⟩])] [("bob", [Json.str "m1", Json.str "m2"])])
          "bob" ⟨false, []⟩).pending_messages
          = removeAssoc (ServerState.mk [("alice", [⟨false, []⟩])]
              [("bob", [Json.str "m1", Json.str "m2"])]).pending_messages "bob"
      ∧ ∀ t : Json,
          lookupAssoc ((auth_transition
              (ServerState.mk [("alice", [⟨false, []⟩])]
                [("bob", [Json.str "m1", Json.str "m2"])]) "bob"
              ⟨false, []⟩).send_to_user "bob" t).1.clients "bob"
            = some [⟨false,
                (pre ++ (lookupAssoc (ServerState.mk [("alice", [⟨false, []⟩])]
                  [("bob", [Json.str "m1", Json.str "m2"])]).pending_messages "bob").getD [])
                ++ [t]⟩] :=
  c7_drain_amended
    (ServerState.mk [("alice", [⟨false, []⟩])] [("bob", [Json.str "m1", Json.str "m2"])])
    "bob" rfl

end Pulse
